import Mathlib

/-
Verification development for the samadhan_franchise_ai_backend repository.

Shallow embedding of the chat/RAG pipeline:
  - ChatService.chat relevance gating and response assembly
    (src/modules/chat — the service concatenated into qa-cache.entity.ts),
  - QACacheService.searchCache / saveToCache / cosineSimilarity
    (src/modules/chat/services/qa-cache.service.ts),
  - ChatService session-history updates and ownership checks,
  - VectorService.deleteDocumentsByDocId and IngestionService.deleteDocument,
  - AskQuestionDto model validation and AIService / OpenAIService model handling,
  - OpenAIService.generateEmbeddings and GeminiService.generateEmbeddings batching.

Numeric values from the source (vector-search scores, embedding components)
are embedded as exact rationals or reals; side-effecting provider calls are
embedded as explicit function parameters, and operations that may raise are
embedded with Except.
-/

open scoped Classical

namespace Samadhan

/-! ## Data model -/

/-- Role of a chat message, from the ChatMessage interface
(role: 'user' | 'assistant'). -/
inductive Role where
  | user
  | assistant
deriving DecidableEq, Repr

/-- A chat message, from the ChatMessage interface in openai.service.ts. -/
structure ChatMessage where
  role : Role
  content : String
deriving DecidableEq, Repr

/-- A vector-search result, from the SearchResult interface in
vector.service.ts; `score` is the similarity score (1 - distance). -/
structure SearchResult where
  id : String
  content : String
  fileName : Option String
  score : ℚ
deriving DecidableEq, Repr

/-- The provenance tag of a chat response, from the ChatResponse interface
(responseSource field). -/
inductive ResponseSource where
  | cached
  | knowledge_base
  | ai_generated
  | hybrid
deriving DecidableEq, Repr

/-- The decision-relevant part of the ChatResponse that ChatService.chat
assembles on the non-file, cache-miss path: the chosen responseSource,
whether saveAIResponseToKnowledgeBase (the vector-store writeback) is
attempted, and the relevanceScore field. -/
structure ChatDecision where
  responseSource : ResponseSource
  writebackToKB : Bool
  relevanceScore : ℚ
deriving DecidableEq, Repr

/-! ## ChatService.chat: relevance gate (claim C1)

From ChatService.chat, steps 3-5 and the response assembly:
  hasRelevantData = searchResults.length > 0 &&
    searchResults.some(result => result.score >= this.relevanceThreshold)
  maxScore = searchResults.length > 0 ? Math.max(...scores) : 0
  if hasRelevantData -> responseSource = knowledge_base (no KB writeback)
  else -> responseSource = ai_generated and saveAIResponseToKnowledgeBase
  is attempted (wrapped in try/catch); response.relevanceScore = maxScore. -/

/-- `searchResults.length > 0 ? Math.max(...searchResults.map(r => r.score)) : 0`. -/
def maxScore (rs : List SearchResult) : ℚ :=
  match rs with
  | [] => 0
  | r :: t => t.foldl (fun m x => max m x.score) r.score

/-- `searchResults.length > 0 && searchResults.some(r => r.score >= threshold)`. -/
def hasRelevantData (threshold : ℚ) (rs : List SearchResult) : Bool :=
  decide (0 < rs.length) && rs.any (fun r => decide (threshold ≤ r.score))

/-- The branch of ChatService.chat that picks the response source, decides
whether to attempt the vector-store writeback, and sets relevanceScore. -/
def chatDecide (threshold : ℚ) (rs : List SearchResult) : ChatDecision :=
  if hasRelevantData threshold rs then
    { responseSource := ResponseSource.knowledge_base,
      writebackToKB := false,
      relevanceScore := maxScore rs }
  else
    { responseSource := ResponseSource.ai_generated,
      writebackToKB := true,
      relevanceScore := maxScore rs }

/-! ## Session history updates (claim C4)

ChatService.chat has three paths that append a user/assistant pair to
session.history before persisting:
  - the cache-hit path (no truncation),
  - the image-analysis path (no truncation),
  - the generated-answer path, which then runs
      if (session.history.length > 10) session.history = session.history.slice(-10). -/

/-- Cache-hit path: `session.history.push({user, message}, {assistant, answer})`
with no truncation. -/
def appendCachedTurn (history : List ChatMessage) (message answer : String) :
    List ChatMessage :=
  history ++ [⟨Role.user, message⟩, ⟨Role.assistant, answer⟩]

/-- Image-analysis path: pushes the bracketed image message and the analysis,
with no truncation. -/
def appendImageTurn (history : List ChatMessage) (fileName message analysis : String) :
    List ChatMessage :=
  history ++ [⟨Role.user, "[Image: " ++ fileName ++ "] " ++ message⟩,
              ⟨Role.assistant, analysis⟩]

/-- Generated-answer path: push the pair, then
`if (history.length > 10) history = history.slice(-10)`
(`slice(-10)` keeps the last 10 elements). -/
def appendGeneratedTurn (history : List ChatMessage) (message answer : String) :
    List ChatMessage :=
  let h2 := history ++ [⟨Role.user, message⟩, ⟨Role.assistant, answer⟩]
  if h2.length > 10 then h2.drop (h2.length - 10) else h2

/-! ## Session ownership (claim C6) -/

/-- A persisted chat session row (ChatSessionEntity). -/
structure SessionRec where
  id : String
  userId : String
  messages : List ChatMessage
  updatedAt : ℕ
deriving DecidableEq, Repr

/-- Errors thrown by ChatService (BadRequestException messages
'Invalid session ID' and 'Session does not belong to user'). -/
inductive ChatError where
  | invalidSession
  | sessionNotOwned
deriving DecidableEq, Repr

/-- `sessionRepository.findOne({ where: { id: sessionId } })`. -/
def findSession (ss : List SessionRec) (sid : String) : Option SessionRec :=
  ss.find? (fun s => s.id == sid)

/-- The session lookup at the top of ChatService.chat:
throws 'Invalid session ID' when the session is missing and
'Session does not belong to user' when `session.userId !== userId`. -/
def chatSessionLookup (ss : List SessionRec) (sid uid : String) :
    Except ChatError SessionRec :=
  match findSession ss sid with
  | none => Except.error ChatError.invalidSession
  | some s =>
    if s.userId ≠ uid then Except.error ChatError.sessionNotOwned
    else Except.ok s

/-- ChatService.deleteSession: `if (session && session.userId === userId)`
delete the row; otherwise fall through and return normally. -/
def deleteSession (ss : List SessionRec) (sid uid : String) :
    Except ChatError (List SessionRec) :=
  match findSession ss sid with
  | some s =>
    if s.userId = uid then Except.ok (ss.filter (fun x => ¬ x.id = sid))
    else Except.ok ss
  | none => Except.ok ss

/-- ChatService.clearSessionHistory: `if (session && session.userId === userId)`
update the row to empty messages; otherwise fall through and return normally. -/
def clearSessionHistory (ss : List SessionRec) (sid uid : String) (now : ℕ) :
    Except ChatError (List SessionRec) :=
  match findSession ss sid with
  | some s =>
    if s.userId = uid then
      Except.ok (ss.map (fun x =>
        if x.id = sid then { x with messages := [], updatedAt := now } else x))
    else Except.ok ss
  | none => Except.ok ss

/-! ## Vector-store deletion (claim C3)

VectorService.deleteDocumentsByDocId in src/modules/vector/vector.service.ts:
  try {
    results = collection.get({ where: { documentId } })
    if (results.ids.length > 0) collection.delete({ ids: results.ids })
  } catch (error) { log; throw error }
IngestionService.deleteDocument wraps it in try/catch and rethrows.
The two fallible Chroma calls are embedded as Except-valued parameters. -/

/-- VectorService.deleteDocumentsByDocId: a single get-then-delete strategy
whose catch block logs and rethrows. -/
def deleteDocumentsByDocId (getByDoc : Except String (List String))
    (deleteByIds : List String → Except String Unit) : Except String Unit :=
  match getByDoc with
  | Except.error e => Except.error e
  | Except.ok ids =>
    if 0 < ids.length then
      match deleteByIds ids with
      | Except.error e => Except.error e
      | Except.ok _ => Except.ok ()
    else Except.ok ()

/-- IngestionService.deleteDocument: calls deleteDocumentsByDocId inside
try/catch and rethrows on failure. -/
def ingestionDeleteDocument (getByDoc : Except String (List String))
    (deleteByIds : List String → Except String Unit) : Except String Unit :=
  match deleteDocumentsByDocId getByDoc deleteByIds with
  | Except.error e => Except.error e
  | Except.ok _ => Except.ok ()

/-! ## Model handling (claim C5)

AskQuestionDto.model is validated with IsEnum(OpenAIModel) by the global
ValidationPipe (main.ts); AIService.chat / generateCompletion forward the
model override unchanged to OpenAIService, which uses
`modelOverride || this.modelName`. There is no cross-provider router
in the code. -/

/-- The OpenAIModel enum from ask-question.dto.ts. -/
def openAIModelEnum : List String :=
  ["gpt-4o-mini", "gpt-4o", "gpt-4-turbo", "gpt-3.5-turbo"]

/-- Whether AskQuestionDto validation accepts the request body's model field
(IsEnum(OpenAIModel) combined with IsOptional). -/
def askQuestionModelAccepted (model : Option String) : Bool :=
  match model with
  | none => true
  | some m => openAIModelEnum.contains m

/-- AIService.chat / AIService.generateCompletion forward modelOverride to
OpenAIService without any inspection or substitution. -/
def aiServiceModelForward (modelOverride : Option String) : Option String :=
  modelOverride

/-- OpenAIService.chat: `const modelToUse = modelOverride || this.modelName`. -/
def openaiModelToUse (defaultModel : String) (modelOverride : Option String) :
    String :=
  modelOverride.getD defaultModel

/-! ## Batch embeddings (claim C9)

OpenAIService.generateEmbeddings: for (i = 0; i < texts.length; i += 20)
embed texts.slice(i, i+20) in one API call (results in input order),
push results, and delay 100ms if i + 20 < texts.length.
GeminiService.generateEmbeddings: the same loop with batchSize 5, embedding
each text of the batch individually via Promise.all (input order kept).
The provider embedding call is embedded as a per-text function `f`; the
result is the list of embeddings paired with the number of delays taken. -/

/-- One slice-embed-delay loop. `bs` is only ever instantiated with the
source's constants 20 and 5; for `1 ≤ bs`, `ts.drop (bs - 1)` below equals
`(t :: ts).drop bs`, the next value of the loop index. -/
def embedBatchLoop (f : String → List ℝ) (bs : ℕ) :
    List String → List (List ℝ) × ℕ
  | [] => ([], 0)
  | t :: ts =>
    let batch := (t :: ts).take bs
    let rest := ts.drop (bs - 1)
    let tail := embedBatchLoop f bs rest
    (batch.map f ++ tail.1, if rest.length = 0 then tail.2 else tail.2 + 1)
termination_by l => l.length
decreasing_by
  simp only [List.length_drop, List.length_cons]
  omega

/-- OpenAIService.generateEmbeddings (batch size 20). -/
def openaiGenerateEmbeddings (f : String → List ℝ) (texts : List String) :
    List (List ℝ) × ℕ :=
  embedBatchLoop f 20 texts

/-- GeminiService.generateEmbeddings (batch size 5). -/
def geminiGenerateEmbeddings (f : String → List ℝ) (texts : List String) :
    List (List ℝ) × ℕ :=
  embedBatchLoop f 5 texts

/-! ## QACacheService (claims C2, C7, C8, C10)

From src/modules/chat/services/qa-cache.service.ts. Embeddings are lists
of reals; timestamps are naturals; the question-embedding provider call and
the repository save, both of which can throw, are Except-valued parameters. -/

/-- A qa_cache row (QACache entity). `embedding` is the parsed form of the
nullable serialized embedding column. -/
structure QACacheEntry where
  id : String
  userId : String
  question : String
  answer : String
  source : String
  model : Option String
  documentSources : Option (List String)
  usageCount : ℕ
  embedding : Option (List ℝ)
  lastUsedAt : ℕ

/-- The CachedResponse interface of qa-cache.service.ts. -/
structure CachedResponse where
  id : String
  question : String
  answer : String
  source : String
  similarity : Option ℝ
  usageCount : ℕ
  lastUsedAt : ℕ
  documentSources : Option (List String)

/-- The CacheSearchResult interface of qa-cache.service.ts. -/
structure CacheSearchResult where
  found : Bool
  response : Option CachedResponse
  similarity : Option ℝ

/-- The `{ found: false }` result. -/
def cacheMiss : CacheSearchResult :=
  { found := false, response := none, similarity := none }

/-- `private readonly SIMILARITY_THRESHOLD = 0.85`. -/
noncomputable def SIMILARITY_THRESHOLD : ℝ := 17 / 20

/-- QACacheService.cosineSimilarity:
  if (vecA.length !== vecB.length) return 0;
then one loop accumulating dotProduct, normA (sum of squares of vecA) and
normB (sum of squares of vecB);
  denominator = sqrt(normA) * sqrt(normB);
  return denominator === 0 ? 0 : dotProduct / denominator. -/
noncomputable def cosineSimilarity (vecA vecB : List ℝ) : ℝ :=
  if vecA.length ≠ vecB.length then 0
  else
    let dotProduct := ((vecA.zip vecB).map (fun p => p.1 * p.2)).sum
    let normA := (vecA.map (fun x => x * x)).sum
    let normB := (vecB.map (fun x => x * x)).sum
    let denominator := Real.sqrt normA * Real.sqrt normB
    if denominator = 0 then 0 else dotProduct / denominator

/-- The Euclidean norm of a vector, written as the spec writes it
(for comparison with the source's computation in claim C8). -/
noncomputable def euclideanNorm (v : List ℝ) : ℝ :=
  Real.sqrt ((v.map (fun x => x * x)).sum)

/-- The dot product of two equal-length vectors. -/
def dotList (a b : List ℝ) : ℝ :=
  ((a.zip b).map (fun p => p.1 * p.2)).sum

/-- Modelled from the spec sentence of claim C8: cosine similarity is
dot(a,b) / (the product of the Euclidean norms), except that a zero-norm
vector yields similarity 0. -/
noncomputable def cosineSimilaritySpec (a b : List ℝ) : ℝ :=
  if euclideanNorm a = 0 ∨ euclideanNorm b = 0 then 0
  else dotList a b / (euclideanNorm a * euclideanNorm b)

/-- The repository query of searchCache:
`find({ where: { userId }, order: { lastUsedAt: DESC }, take: 100 })`. -/
def fetchWindow (store : List QACacheEntry) (uid : String) : List QACacheEntry :=
  (((store.filter (fun e => e.userId = uid)).insertionSort
      (fun a b => b.lastUsedAt ≤ a.lastUsedAt)).take 100)

/-- One iteration of the best-match loop of searchCache: skip entries with
no stored embedding, otherwise update (bestMatch, highestSimilarity) when
the similarity strictly exceeds the running maximum. -/
noncomputable def scanStep (q : List ℝ) (acc : Option QACacheEntry × ℝ)
    (item : QACacheEntry) : Option QACacheEntry × ℝ :=
  match item.embedding with
  | none => acc
  | some emb =>
    let sim := cosineSimilarity q emb
    if acc.2 < sim then (some item, sim) else acc

/-- The best-match loop of searchCache, started from
(bestMatch = null, highestSimilarity = 0). -/
noncomputable def scanBest (q : List ℝ) (items : List QACacheEntry) :
    Option QACacheEntry × ℝ :=
  items.foldl (scanStep q) (none, 0)

/-- QACacheService.updateUsageStats applied to the store:
`update(cacheId, { usageCount: usage_count + 1, lastUsedAt: new Date() })`. -/
def bumpUsage (store : List QACacheEntry) (cid : String) (now : ℕ) :
    List QACacheEntry :=
  store.map (fun e =>
    if e.id = cid then { e with usageCount := e.usageCount + 1, lastUsedAt := now }
    else e)

/-- The body of QACacheService.searchCache after the question embedding has
been obtained: fetch the window, return `{found: false}` when it is empty,
otherwise run the best-match loop; on `bestMatch && highest >= 0.85` update
usage stats and return the found response, else return `{found: false}`. -/
noncomputable def searchCacheBody (q : List ℝ) (store : List QACacheEntry)
    (uid : String) (now : ℕ) : CacheSearchResult × List QACacheEntry :=
  let window := fetchWindow store uid
  if window.length = 0 then (cacheMiss, store)
  else
    match scanBest q window with
    | (some b, highest) =>
      if SIMILARITY_THRESHOLD ≤ highest then
        ({ found := true,
           similarity := some highest,
           response := some
             { id := b.id, question := b.question, answer := b.answer,
               source := "cached", similarity := some highest,
               usageCount := b.usageCount + 1, lastUsedAt := now,
               documentSources := b.documentSources } },
         bumpUsage store b.id now)
      else (cacheMiss, store)
    | (none, _) => (cacheMiss, store)

/-- QACacheService.searchCache: the whole body runs inside try/catch and the
catch branch logs the error and returns `{ found: false }`. The fallible
embedding call is the Except-valued first argument. -/
noncomputable def searchCache (embedRes : Except String (List ℝ))
    (store : List QACacheEntry) (uid : String) (now : ℕ) :
    CacheSearchResult × List QACacheEntry :=
  match embedRes with
  | Except.error _ => (cacheMiss, store)
  | Except.ok q => searchCacheBody q store uid now

/-- The entry that QACacheService.saveToCache persists:
usageCount 1, lastUsedAt now, the question embedding serialized. -/
def mkCacheEntry (newId uid question answer source model : String)
    (docs : Option (List String)) (emb : List ℝ) (now : ℕ) : QACacheEntry :=
  { id := newId, userId := uid, question := question, answer := answer,
    source := source, model := some model, documentSources := docs,
    usageCount := 1, embedding := some emb, lastUsedAt := now }

/-- QACacheService.saveToCache: embed the question, create the entry and
save it; the whole body runs inside try/catch whose catch branch only logs
(the comment in the source: cache failure must not break the chat flow).
The fallible embedding call and repository save are Except-valued
parameters; the function totally returns the resulting store. -/
def saveToCache (embedRes : Except String (List ℝ))
    (saveRes : Except String Unit) (store : List QACacheEntry)
    (newId uid question answer source model : String)
    (docs : Option (List String)) (now : ℕ) : List QACacheEntry :=
  match embedRes with
  | Except.error _ => store
  | Except.ok emb =>
    match saveRes with
    | Except.error _ => store
    | Except.ok _ =>
      store ++ [mkCacheEntry newId uid question answer source model docs emb now]

/-! ## Concrete fixtures used by witnesses and counterexamples -/

/-- A single low-scoring search result (score 0.12). -/
def c1results : List SearchResult :=
  [{ id := "r1", content := "chunk", fileName := some "doc.pdf", score := 12 / 100 }]

/-- A session history already holding 10 messages. -/
def tenMessages : List ChatMessage :=
  List.replicate 10 { role := Role.user, content := "m" }

/-- A session owned by user alice. -/
def aliceSession : SessionRec :=
  { id := "s1", userId := "alice",
    messages := [{ role := Role.user, content := "hi" }], updatedAt := 0 }

/-- A cache entry of user u whose stored question embedding is the unit
vector (1, 0). -/
def c2entry : QACacheEntry :=
  { id := "e1", userId := "u", question := "what is x", answer := "x is y",
    source := "ai_generated", model := some "gpt-4o-mini",
    documentSources := none, usageCount := 1,
    embedding := some [1, 0], lastUsedAt := 0 }

/-- A cache entry of user v whose stored embedding has dimension 2. -/
def c10entry : QACacheEntry :=
  { id := "e2", userId := "v", question := "other", answer := "ans",
    source := "ai_generated", model := none,
    documentSources := none, usageCount := 3,
    embedding := some [1, 0], lastUsedAt := 4 }

/-! # Lemmas -/

/-! ## Folded maximum (for claim C1) -/

lemma foldl_max_init_le (t : List SearchResult) :
    ∀ a : ℚ, a ≤ t.foldl (fun m x => max m x.score) a := by
  induction t with
  | nil => intro a; exact le_refl a
  | cons x ts ih =>
    intro a
    exact le_trans (le_max_left a x.score) (ih (max a x.score))

lemma foldl_max_mem_le (t : List SearchResult) :
    ∀ (a : ℚ) (x : SearchResult), x ∈ t →
      x.score ≤ t.foldl (fun m x => max m x.score) a := by
  induction t with
  | nil => intro a x hx; cases hx
  | cons y ts ih =>
    intro a x hx
    rcases List.mem_cons.mp hx with h | h
    · subst h
      exact le_trans (le_max_right a x.score) (foldl_max_init_le ts _)
    · exact ih _ x h

/-- Every search-result score is bounded by maxScore. -/
lemma score_le_maxScore {r : SearchResult} {rs : List SearchResult}
    (h : r ∈ rs) : r.score ≤ maxScore rs := by
  cases rs with
  | nil => cases h
  | cons x t =>
    rcases List.mem_cons.mp h with hr | hr
    · subst hr
      exact foldl_max_init_le t _
    · exact foldl_max_mem_le t _ _ hr

/-! ## Cosine similarity and the searchCache loop (claims C2, C8, C10) -/

lemma cacheMiss_found : cacheMiss.found = false := rfl

lemma scanStep_le (q : List ℝ) (acc : Option QACacheEntry × ℝ)
    (x : QACacheEntry) : acc.2 ≤ (scanStep q acc x).2 := by
  unfold scanStep
  rcases hx : x.embedding with _ | emb
  · exact le_refl _
  · dsimp only
    split
    · next hlt => exact le_of_lt hlt
    · exact le_refl _

lemma scanStep_sim_le (q : List ℝ) (acc : Option QACacheEntry × ℝ)
    (x : QACacheEntry) (emb : List ℝ) (he : x.embedding = some emb) :
    cosineSimilarity q emb ≤ (scanStep q acc x).2 := by
  unfold scanStep
  rw [he]
  dsimp only
  split
  · exact le_refl _
  · next h => exact le_of_not_lt h

lemma scanStep_cases (q : List ℝ) (acc : Option QACacheEntry × ℝ)
    (x : QACacheEntry) :
    scanStep q acc x = acc ∨
    ∃ emb, x.embedding = some emb ∧
      scanStep q acc x = (some x, cosineSimilarity q emb) := by
  unfold scanStep
  rcases hx : x.embedding with _ | emb
  · exact Or.inl rfl
  · dsimp only
    split
    · exact Or.inr ⟨emb, rfl, rfl⟩
    · exact Or.inl rfl

/-- Invariants of the best-match fold of searchCache: the running maximum
never decreases, bounds every similarity seen, and the final state is
either the initial one or the pair of a scanned entry and its similarity. -/
lemma scanFold_spec (q : List ℝ) :
    ∀ (l : List QACacheEntry) (acc : Option QACacheEntry × ℝ),
      acc.2 ≤ (l.foldl (scanStep q) acc).2 ∧
      (∀ e ∈ l, ∀ emb, e.embedding = some emb →
        cosineSimilarity q emb ≤ (l.foldl (scanStep q) acc).2) ∧
      (l.foldl (scanStep q) acc = acc ∨
        ∃ b ∈ l, ∃ emb, b.embedding = some emb ∧
          l.foldl (scanStep q) acc = (some b, cosineSimilarity q emb)) := by
  intro l
  induction l with
  | nil =>
    intro acc
    refine ⟨le_refl _, ?_, Or.inl rfl⟩
    intro e he
    cases he
  | cons x t ih =>
    intro acc
    obtain ⟨ih1, ih2, ih3⟩ := ih (scanStep q acc x)
    have hfold : (x :: t).foldl (scanStep q) acc =
        t.foldl (scanStep q) (scanStep q acc x) := rfl
    refine ⟨?_, ?_, ?_⟩
    · rw [hfold]
      exact le_trans (scanStep_le q acc x) ih1
    · rw [hfold]
      intro e he emb hemb
      rcases List.mem_cons.mp he with h | h
      · subst h
        exact le_trans (scanStep_sim_le q acc e emb hemb) ih1
      · exact ih2 e h emb hemb
    · rw [hfold]
      rcases ih3 with h | ⟨b, hb, emb, hemb, heq⟩
      · rw [h]
        rcases scanStep_cases q acc x with h2 | ⟨emb, hemb, h2⟩
        · exact Or.inl h2
        · exact Or.inr ⟨x, List.mem_cons_self x t, emb, hemb, h2⟩
      · exact Or.inr ⟨b, List.mem_cons_of_mem x hb, emb, hemb, heq⟩

/-- The best-match loop, summarized for its initial state (null, 0). -/
lemma scanBest_spec (q : List ℝ) (w : List QACacheEntry) :
    (∀ e ∈ w, ∀ emb, e.embedding = some emb →
      cosineSimilarity q emb ≤ (scanBest q w).2) ∧
    (scanBest q w = (none, 0) ∨
      ∃ b ∈ w, ∃ emb, b.embedding = some emb ∧
        scanBest q w = (some b, cosineSimilarity q emb)) := by
  obtain ⟨h1, h2, h3⟩ := scanFold_spec q w (none, 0)
  exact ⟨h2, h3⟩

/-- searchCache reports a hit exactly when some entry of the fetched window
has a stored embedding whose cosine similarity to the probe reaches the
0.85 threshold. -/
lemma searchCacheBody_found_iff (q : List ℝ) (store : List QACacheEntry)
    (uid : String) (now : ℕ) :
    (searchCacheBody q store uid now).1.found = true ↔
    ∃ e ∈ fetchWindow store uid, ∃ emb, e.embedding = some emb ∧
      SIMILARITY_THRESHOLD ≤ cosineSimilarity q emb := by
  obtain ⟨h2, h3⟩ := scanBest_spec q (fetchWindow store uid)
  simp only [searchCacheBody]
  by_cases hw : (fetchWindow store uid).length = 0
  · rw [if_pos hw]
    have hnil : fetchWindow store uid = [] := List.length_eq_zero.mp hw
    refine iff_of_false (by simp [cacheMiss]) ?_
    rintro ⟨e, he, -⟩
    rw [hnil] at he
    cases he
  · rw [if_neg hw]
    rcases hsb : scanBest q (fetchWindow store uid) with ⟨best, high⟩
    rw [hsb] at h2 h3
    cases best with
    | none =>
      dsimp only
      refine iff_of_false (by simp [cacheMiss]) ?_
      rintro ⟨e, he, emb, hemb, hθ⟩
      have hhigh : high = 0 := by
        rcases h3 with hacc | ⟨b, hb, emb2, hemb2, heq⟩
        · exact congrArg Prod.snd hacc
        · exact absurd (congrArg Prod.fst heq) (by simp)
      have hle : cosineSimilarity q emb ≤ high := h2 e he emb hemb
      rw [hhigh] at hle
      have : SIMILARITY_THRESHOLD ≤ (0 : ℝ) := le_trans hθ hle
      simp only [SIMILARITY_THRESHOLD] at this
      norm_num at this
    | some b =>
      dsimp only
      by_cases hθ : SIMILARITY_THRESHOLD ≤ high
      · rw [if_pos hθ]
        refine iff_of_true rfl ?_
        rcases h3 with hacc | ⟨b2, hb2, emb2, hemb2, heq⟩
        · exact absurd (congrArg Prod.fst hacc) (by simp)
        · have hb : b = b2 := by
            have := congrArg Prod.fst heq
            simpa using this
          have hhigh : high = cosineSimilarity q emb2 :=
            congrArg Prod.snd heq
          subst hb
          exact ⟨b, hb2, emb2, hemb2, hhigh ▸ hθ⟩
      · rw [if_neg hθ]
        refine iff_of_false (by simp [cacheMiss]) ?_
        rintro ⟨e, he, emb, hemb, hθ2⟩
        exact hθ (le_trans hθ2 (h2 e he emb hemb))

/-- On a miss, searchCache returns `{found: false}` and the store is not
mutated. -/
lemma searchCacheBody_miss (q : List ℝ) (store : List QACacheEntry)
    (uid : String) (now : ℕ)
    (hf : (searchCacheBody q store uid now).1.found = false) :
    searchCacheBody q store uid now = (cacheMiss, store) := by
  simp only [searchCacheBody] at hf ⊢
  by_cases hw : (fetchWindow store uid).length = 0
  · rw [if_pos hw]
  · rw [if_neg hw] at hf ⊢
    rcases hsb : scanBest q (fetchWindow store uid) with ⟨best, high⟩
    rw [hsb] at hf
    cases best with
    | none => rfl
    | some b =>
      dsimp only at hf ⊢
      by_cases hθ : SIMILARITY_THRESHOLD ≤ high
      · rw [if_pos hθ] at hf
        simp at hf
      · rw [if_neg hθ]

/-- On a hit, searchCache returns the window entry attaining the maximal
similarity, reports that similarity, and bumps the matched row's
usageCount and lastUsedAt in the store. -/
lemma searchCacheBody_hit (q : List ℝ) (store : List QACacheEntry)
    (uid : String) (now : ℕ)
    (hf : (searchCacheBody q store uid now).1.found = true) :
    ∃ b ∈ fetchWindow store uid, ∃ emb,
      b.embedding = some emb ∧
      (∀ e ∈ fetchWindow store uid, ∀ emb2, e.embedding = some emb2 →
        cosineSimilarity q emb2 ≤ cosineSimilarity q emb) ∧
      (searchCacheBody q store uid now).1.similarity =
        some (cosineSimilarity q emb) ∧
      (searchCacheBody q store uid now).1.response = some
        { id := b.id, question := b.question, answer := b.answer,
          source := "cached", similarity := some (cosineSimilarity q emb),
          usageCount := b.usageCount + 1, lastUsedAt := now,
          documentSources := b.documentSources } ∧
      (searchCacheBody q store uid now).2 = bumpUsage store b.id now := by
  obtain ⟨h2, h3⟩ := scanBest_spec q (fetchWindow store uid)
  simp only [searchCacheBody] at hf ⊢
  by_cases hw : (fetchWindow store uid).length = 0
  · rw [if_pos hw] at hf
    simp [cacheMiss] at hf
  · rw [if_neg hw] at hf ⊢
    rcases hsb : scanBest q (fetchWindow store uid) with ⟨best, high⟩
    rw [hsb] at hf h2 h3
    cases best with
    | none => simp [cacheMiss] at hf
    | some b =>
      dsimp only at hf ⊢
      by_cases hθ : SIMILARITY_THRESHOLD ≤ high
      · rw [if_pos hθ]
        rcases h3 with hacc | ⟨b2, hb2, emb2, hemb2, heq⟩
        · exact absurd (congrArg Prod.fst hacc) (by simp)
        · have hb : b = b2 := by
            have := congrArg Prod.fst heq
            simpa using this
          have hhigh : high = cosineSimilarity q emb2 :=
            congrArg Prod.snd heq
          subst hb
          subst hhigh
          refine ⟨b, hb2, emb2, hemb2, ?_, rfl, rfl, rfl⟩
          intro e he emb3 hemb3
          exact h2 e he emb3 hemb3
      · rw [if_neg hθ] at hf
        simp [cacheMiss] at hf

/-- fetchWindow on a one-entry store owned by the probing user is that
single entry. -/
lemma fetchWindow_singleton (e : QACacheEntry) (uid : String)
    (h : e.userId = uid) : fetchWindow [e] uid = [e] := by
  simp [fetchWindow, h, List.insertionSort]

/-! # Claim theorems -/

/-- C1: for every non-file chat request that misses the cache, if the
maximum vector-search score is below the relevance threshold the engine
answers with responseSource ai_generated and attempts the vector-store
writeback; if some result's score is at or above the threshold it answers
with responseSource knowledge_base and performs no writeback; and the
response's relevanceScore equals the maximum score over the results
(0 when there are none). -/
theorem c1_relevance_gate (threshold : ℚ) (rs : List SearchResult) :
    (maxScore rs < threshold →
      chatDecide threshold rs =
        { responseSource := ResponseSource.ai_generated,
          writebackToKB := true, relevanceScore := maxScore rs }) ∧
    ((∃ r ∈ rs, threshold ≤ r.score) →
      chatDecide threshold rs =
        { responseSource := ResponseSource.knowledge_base,
          writebackToKB := false, relevanceScore := maxScore rs }) ∧
    (chatDecide threshold rs).relevanceScore = maxScore rs ∧
    (rs = [] → maxScore rs = 0) := by
  refine ⟨?_, ?_, ?_, ?_⟩
  · intro hlt
    have hfalse : hasRelevantData threshold rs = false := by
      cases hr : hasRelevantData threshold rs with
      | false => rfl
      | true =>
        exfalso
        have := (Bool.and_eq_true _ _).mp hr
        rcases List.any_eq_true.mp this.2 with ⟨r, hrmem, hrscore⟩
        have hscore : threshold ≤ r.score := of_decide_eq_true hrscore
        exact absurd (lt_of_le_of_lt (le_trans hscore (score_le_maxScore hrmem)) hlt)
          (lt_irrefl threshold)
    simp [chatDecide, hfalse]
  · rintro ⟨r, hmem, hscore⟩
    have htrue : hasRelevantData threshold rs = true := by
      apply (Bool.and_eq_true _ _).mpr
      constructor
      · exact decide_eq_true_eq.mpr (List.length_pos.mpr (List.ne_nil_of_mem hmem))
      · exact List.any_eq_true.mpr ⟨r, hmem, decide_eq_true_eq.mpr hscore⟩
    simp [chatDecide, htrue]
  · unfold chatDecide
    split <;> rfl
  · intro h
    subst h
    rfl

/-- Witness for c1_relevance_gate: with one result of score 0.12 and
threshold 0.3 the engine picks ai_generated, attempts the writeback, and
reports relevanceScore 0.12. -/
theorem c1_relevance_gate_witness :
    maxScore c1results < 3 / 10 ∧
    chatDecide (3 / 10) c1results =
      { responseSource := ResponseSource.ai_generated,
        writebackToKB := true, relevanceScore := 12 / 100 } := by
  have hmax : maxScore c1results < 3 / 10 := by
    norm_num [maxScore, c1results]
  exact ⟨hmax, (c1_relevance_gate (3 / 10) c1results).1 hmax⟩

/-- C4 counterexample: appending a user+assistant pair on the cache-hit
path to a session already holding 10 messages leaves 12 messages, not 10 —
the cache-hit path performs no truncation. -/
theorem c4_counterexample :
    (appendCachedTurn tenMessages "q" "a").length = 12 ∧
    ¬ (appendCachedTurn tenMessages "q" "a").length ≤ 10 := by
  constructor
  · rfl
  · intro h
    simp [appendCachedTurn, tenMessages] at h

/-- C4 amended: only the generated-answer path enforces the 10-message cap
(a history of at most 10 stays at most 10, and appending a pair to exactly
10 messages keeps 10 with the oldest 2 dropped); the cache-hit and image
paths append the two messages with no truncation, so the persisted history
can exceed 10. -/
theorem c4_history_truncation (history : List ChatMessage)
    (fileName message answer : String) :
    (history.length ≤ 10 →
      (appendGeneratedTurn history message answer).length ≤ 10) ∧
    (history.length = 10 →
      appendGeneratedTurn history message answer =
        history.drop 2 ++ [{ role := Role.user, content := message },
                           { role := Role.assistant, content := answer }] ∧
      (appendGeneratedTurn history message answer).length = 10) ∧
    (appendCachedTurn history message answer).length = history.length + 2 ∧
    (appendImageTurn history fileName message answer).length =
      history.length + 2 := by
  refine ⟨?_, ?_, ?_, ?_⟩
  · intro hle
    simp only [appendGeneratedTurn]
    split
    · simp only [List.length_drop, List.length_append, List.length_cons,
        List.length_nil]
      omega
    · simp only [List.length_append, List.length_cons, List.length_nil] at *
      omega
  · intro hten
    constructor
    · simp only [appendGeneratedTurn]
      rw [if_pos (by simp [hten])]
      rw [List.drop_append_eq_append_drop]
      simp [hten]
    · simp only [appendGeneratedTurn]
      rw [if_pos (by simp [hten])]
      simp [hten]
  · simp [appendCachedTurn]
  · simp [appendImageTurn]

/-- Witness for c4_history_truncation: a 10-message history stays at
10 messages on the generated-answer path. -/
theorem c4_history_truncation_witness :
    tenMessages.length = 10 ∧
    (appendGeneratedTurn tenMessages "q" "a").length = 10 := by
  have h10 : tenMessages.length = 10 := by rfl
  exact ⟨h10, ((c4_history_truncation tenMessages "f.png" "q" "a").2.1 h10).2⟩

/-- C6 counterexample: deleteSession and clearSessionHistory invoked by a
non-owner complete without any error and leave the store unchanged — a
silent no-op, not a permission failure. -/
theorem c6_counterexample :
    deleteSession [aliceSession] "s1" "bob" = Except.ok [aliceSession] ∧
    clearSessionHistory [aliceSession] "s1" "bob" 5 =
      Except.ok [aliceSession] := by
  constructor
  · simp [deleteSession, findSession, aliceSession]
  · simp [clearSessionHistory, findSession, aliceSession]

/-- C6 amended: on an ownership mismatch, chat on an existing session fails
with a permission error ('Session does not belong to user') and leaves the
session unchanged, but deleteSession and clearSessionHistory are silent
no-ops: they return normally and leave the store unchanged. -/
theorem c6_ownership (ss : List SessionRec) (sid uid : String) (now : ℕ)
    (s : SessionRec) (hfind : findSession ss sid = some s)
    (hown : s.userId ≠ uid) :
    chatSessionLookup ss sid uid = Except.error ChatError.sessionNotOwned ∧
    deleteSession ss sid uid = Except.ok ss ∧
    clearSessionHistory ss sid uid now = Except.ok ss := by
  refine ⟨?_, ?_, ?_⟩
  · unfold chatSessionLookup
    rw [hfind]
    exact if_pos hown
  · unfold deleteSession
    rw [hfind]
    exact if_neg hown
  · unfold clearSessionHistory
    rw [hfind]
    exact if_neg hown

/-- Witness for c6_ownership: with the store holding only alice's session
and requester bob, chat errors while delete and clear are no-ops. -/
theorem c6_ownership_witness :
    chatSessionLookup [aliceSession] "s1" "bob" =
      Except.error ChatError.sessionNotOwned ∧
    deleteSession [aliceSession] "s1" "bob" = Except.ok [aliceSession] ∧
    clearSessionHistory [aliceSession] "s1" "bob" 9 =
      Except.ok [aliceSession] := by
  have hfind : findSession [aliceSession] "s1" = some aliceSession := by
    simp [findSession, aliceSession]
  exact c6_ownership [aliceSession] "s1" "bob" 9 aliceSession hfind (by decide)

/-- C3: the code contradicts the claim (and REINDEX_FIX.md): the deployed
deleteDocumentsByDocId has a single get-then-delete strategy whose catch
block rethrows, and IngestionService.deleteDocument rethrows in turn, so a
failing metadata-filter get propagates to the caller instead of being
absorbed by a three-strategy fallback ladder. -/
theorem c3_delete_propagates_failure :
    deleteDocumentsByDocId (Except.error "chroma get failed")
      (fun _ => Except.ok ()) = Except.error "chroma get failed" ∧
    ingestionDeleteDocument (Except.error "chroma get failed")
      (fun _ => Except.ok ()) = Except.error "chroma get failed" := by
  exact ⟨rfl, rfl⟩

/-- C5: the code contradicts the claim (and MODEL_VALIDATION_FIX.md):
AskQuestionDto rejects a Gemini model name at validation (so the request
fails with a 400 instead of succeeding with the default model), and
AIService / OpenAIService forward any model override verbatim with no
cross-provider substitution. -/
theorem c5_no_model_router :
    askQuestionModelAccepted (some "gemini-2.5-pro") = false ∧
    aiServiceModelForward (some "gemini-2.5-pro") = some "gemini-2.5-pro" ∧
    openaiModelToUse "gpt-4o-mini" (some "gemini-2.5-pro") =
      "gemini-2.5-pro" := by
  exact ⟨rfl, rfl, rfl⟩

/-! ## Batch embedding lemmas (claim C9) -/

lemma embedBatchLoop_spec_aux (f : String → List ℝ) (bs : ℕ) (hbs : 1 ≤ bs) :
    ∀ (n : ℕ) (l : List String), l.length ≤ n →
      (embedBatchLoop f bs l).1 = l.map f ∧
      (embedBatchLoop f bs l).2 = (l.length - 1) / bs := by
  intro n
  induction n with
  | zero =>
    intro l hl
    have hnil : l = [] := List.length_eq_zero.mp (Nat.le_zero.mp hl)
    subst hnil
    constructor <;> simp [embedBatchLoop]
  | succ n ih =>
    intro l hl
    cases l with
    | nil => constructor <;> simp [embedBatchLoop]
    | cons t ts =>
      have hdrop : ts.drop (bs - 1) = (t :: ts).drop bs := by
        cases bs with
        | zero => exact absurd hbs (by omega)
        | succ m => simp [List.drop]
      have hlen : (ts.drop (bs - 1)).length ≤ n := by
        simp only [List.length_drop]
        simp only [List.length_cons] at hl
        omega
      obtain ⟨ih1, ih2⟩ := ih (ts.drop (bs - 1)) hlen
      constructor
      · simp only [embedBatchLoop]
        rw [ih1, hdrop, ← List.map_append, List.take_append_drop]
      · simp only [embedBatchLoop]
        rw [ih2]
        by_cases hrest : (ts.drop (bs - 1)).length = 0
        · rw [if_pos hrest]
          simp only [List.length_drop] at hrest ⊢
          simp only [List.length_cons]
          have h0 : ts.length - (bs - 1) - 1 = 0 := by omega
          have hlt : ts.length < bs := by omega
          rw [h0, Nat.zero_div, Nat.add_sub_cancel, Nat.div_eq_of_lt hlt]
        · rw [if_neg hrest]
          simp only [List.length_drop] at hrest ⊢
          simp only [List.length_cons]
          have hgt : bs - 1 < ts.length := by omega
          have heq : ts.length + 1 - 1 = (ts.length - bs) + bs := by omega
          have heq2 : ts.length - (bs - 1) - 1 = ts.length - bs := by omega
          rw [heq, heq2, Nat.add_div_right _ (by omega)]

/-- C9: batch embedding returns exactly the per-text embeddings in input
order (output position i is the embedding of input position i), and the
loop takes one inter-batch delay between each pair of consecutive
sub-batches: (length - 1) / batchSize delays, none when the input fits in
one batch of 20 (OpenAI) or 5 (Gemini). -/
theorem c9_embedBatch_order (f : String → List ℝ) (texts : List String) :
    (openaiGenerateEmbeddings f texts).1 = texts.map f ∧
    (openaiGenerateEmbeddings f texts).2 = (texts.length - 1) / 20 ∧
    (geminiGenerateEmbeddings f texts).1 = texts.map f ∧
    (geminiGenerateEmbeddings f texts).2 = (texts.length - 1) / 5 := by
  obtain ⟨h1, h2⟩ :=
    embedBatchLoop_spec_aux f 20 (by omega) texts.length texts le_rfl
  obtain ⟨h3, h4⟩ :=
    embedBatchLoop_spec_aux f 5 (by omega) texts.length texts le_rfl
  exact ⟨h1, h2, h3, h4⟩

/-- C8: for equal-length vectors the cache's cosine similarity is the dot
product divided by the product of the Euclidean norms, except that the
result is 0 whenever either norm is 0 — the guarded division is exactly
the spec's zero-norm convention, so no division by a zero denominator is
performed. -/
theorem c8_cosine_formula (a b : List ℝ) (h : a.length = b.length) :
    cosineSimilarity a b = cosineSimilaritySpec a b := by
  simp only [cosineSimilarity, cosineSimilaritySpec, euclideanNorm, dotList]
  rw [if_neg (by simp [h])]
  by_cases hz :
      Real.sqrt ((a.map (fun x => x * x)).sum) *
        Real.sqrt ((b.map (fun x => x * x)).sum) = 0
  · rw [if_pos hz, if_pos (mul_eq_zero.mp hz)]
  · rw [if_neg hz, if_neg (fun hor => hz (mul_eq_zero.mpr hor))]

/-- Witness for c8_cosine_formula on the equal-length pair (1) and (0),
whose second norm is zero. -/
theorem c8_cosine_formula_witness :
    ([(1 : ℝ)].length = [(0 : ℝ)].length) ∧
    cosineSimilarity [(1 : ℝ)] [(0 : ℝ)] =
      cosineSimilaritySpec [(1 : ℝ)] [(0 : ℝ)] :=
  ⟨rfl, c8_cosine_formula [(1 : ℝ)] [(0 : ℝ)] rfl⟩

/-- C2: searchCache compares the probe embedding against the owner's
most-recently-used window of at most 100 entries; it reports found exactly
when some windowed entry's stored embedding reaches cosine similarity
0.85, in which case the returned response is built from an entry attaining
the maximal similarity (reporting that similarity, with usageCount + 1 and
lastUsedAt = now), and the store gets exactly that entry's usageCount
incremented and lastUsedAt refreshed; on a miss nothing is mutated. -/
theorem c2_cache_lookup (q : List ℝ) (store : List QACacheEntry)
    (uid : String) (now : ℕ) :
    (fetchWindow store uid).length ≤ 100 ∧
    ((searchCache (Except.ok q) store uid now).1.found = true ↔
      ∃ e ∈ fetchWindow store uid, ∃ emb, e.embedding = some emb ∧
        SIMILARITY_THRESHOLD ≤ cosineSimilarity q emb) ∧
    ((searchCache (Except.ok q) store uid now).1.found = true →
      ∃ b ∈ fetchWindow store uid, ∃ emb,
        b.embedding = some emb ∧
        (∀ e ∈ fetchWindow store uid, ∀ emb2, e.embedding = some emb2 →
          cosineSimilarity q emb2 ≤ cosineSimilarity q emb) ∧
        (searchCache (Except.ok q) store uid now).1.similarity =
          some (cosineSimilarity q emb) ∧
        (searchCache (Except.ok q) store uid now).1.response = some
          { id := b.id, question := b.question, answer := b.answer,
            source := "cached", similarity := some (cosineSimilarity q emb),
            usageCount := b.usageCount + 1, lastUsedAt := now,
            documentSources := b.documentSources } ∧
        (searchCache (Except.ok q) store uid now).2 =
          bumpUsage store b.id now) ∧
    ((searchCache (Except.ok q) store uid now).1.found = false →
      searchCache (Except.ok q) store uid now = (cacheMiss, store)) := by
  have heq : searchCache (Except.ok q) store uid now =
      searchCacheBody q store uid now := rfl
  rw [heq]
  refine ⟨?_, searchCacheBody_found_iff q store uid now,
    searchCacheBody_hit q store uid now,
    searchCacheBody_miss q store uid now⟩
  simp only [fetchWindow]
  exact List.length_take_le _ _

/-- The cosine similarity of the unit vector (1, 0) with itself is 1. -/
lemma cosineSimilarity_unit :
    cosineSimilarity [(1 : ℝ), 0] [(1 : ℝ), 0] = 1 := by
  simp only [cosineSimilarity]
  norm_num [Real.sqrt_one]

/-- Witness for c2_cache_lookup: probing with the exact stored embedding
(similarity 1 ≥ 0.85) is reported as found. -/
theorem c2_cache_lookup_witness :
    (searchCache (Except.ok [(1 : ℝ), 0]) [c2entry] "u" 7).1.found = true := by
  have h := (c2_cache_lookup [(1 : ℝ), 0] [c2entry] "u" 7).2.1
  apply h.mpr
  refine ⟨c2entry, ?_, [(1 : ℝ), 0], rfl, ?_⟩
  · rw [fetchWindow_singleton c2entry "u" rfl]
    exact List.mem_singleton.mpr rfl
  · rw [cosineSimilarity_unit]
    simp only [SIMILARITY_THRESHOLD]
    norm_num

/-- C10: a dimensionality mismatch makes the cache's cosine similarity
exactly 0 (the length guard fires before any element is combined), which
is below the 0.85 threshold, so a store whose windowed embeddings all have
a different dimensionality than the probe can never produce a cache hit. -/
theorem c10_dim_mismatch (a b q : List ℝ) (store : List QACacheEntry)
    (uid : String) (now : ℕ) :
    (a.length ≠ b.length →
      cosineSimilarity a b = 0 ∧
      cosineSimilarity a b < SIMILARITY_THRESHOLD) ∧
    ((∀ e ∈ fetchWindow store uid, ∀ emb, e.embedding = some emb →
        emb.length ≠ q.length) →
      (searchCache (Except.ok q) store uid now).1.found = false) := by
  constructor
  · intro h
    have h0 : cosineSimilarity a b = 0 := by
      simp only [cosineSimilarity]
      rw [if_pos h]
    refine ⟨h0, ?_⟩
    rw [h0]
    simp only [SIMILARITY_THRESHOLD]
    norm_num
  · intro hall
    cases hfound : (searchCache (Except.ok q) store uid now).1.found with
    | false => rfl
    | true =>
      exfalso
      have hb : (searchCacheBody q store uid now).1.found = true := hfound
      obtain ⟨e, he, emb, hemb, hθ⟩ :=
        (searchCacheBody_found_iff q store uid now).mp hb
      have hlen : q.length ≠ emb.length :=
        fun hx => hall e he emb hemb hx.symm
      have h0 : cosineSimilarity q emb = 0 := by
        simp only [cosineSimilarity]
        rw [if_pos hlen]
      rw [h0] at hθ
      simp only [SIMILARITY_THRESHOLD] at hθ
      norm_num at hθ

/-- Witness for c10_dim_mismatch: a 1-dimensional probe against the
2-dimensional stored embedding yields similarity 0 and no hit. -/
theorem c10_dim_mismatch_witness :
    cosineSimilarity [(1 : ℝ)] [] = 0 ∧
    (searchCache (Except.ok [(1 : ℝ)]) [c10entry] "v" 3).1.found = false := by
  have h := c10_dim_mismatch [(1 : ℝ)] [] [(1 : ℝ)] [c10entry] "v" 3
  refine ⟨(h.1 (by simp)).1, ?_⟩
  apply h.2
  intro e he emb hemb
  rw [fetchWindow_singleton c10entry "v" rfl] at he
  have he2 : e = c10entry := List.mem_singleton.mp he
  subst he2
  have hemb2 : emb = [(1 : ℝ), 0] := by
    have hsome : (some [(1 : ℝ), 0] : Option (List ℝ)) = some emb := hemb
    exact (Option.some.inj hsome).symm
  subst hemb2
  simp

/-- C7: a cache lookup whose embedding call throws is caught and reported
as a miss with the store untouched, and a cache writeback whose embedding
call or repository save throws is caught, leaves the store untouched, and
still returns normally — so the chat request keeps its generated answer. -/
theorem c7_cache_failure_nonfatal (e : String) (emb : List ℝ)
    (store : List QACacheEntry) (uid : String) (now : ℕ)
    (saveRes : Except String Unit)
    (newId question answer source model : String)
    (docs : Option (List String)) :
    searchCache (Except.error e) store uid now = (cacheMiss, store) ∧
    saveToCache (Except.error e) saveRes store newId uid question answer
      source model docs now = store ∧
    saveToCache (Except.ok emb) (Except.error e) store newId uid question
      answer source model docs now = store :=
  ⟨rfl, rfl, rfl⟩

end Samadhan
